import Mathlib

/-!
Shallow embedding of the Jaipur rules engine (`GameEngine.py`) and proofs
about it.  Card types are the integer indices the source uses
(`_types = ["leather", "spice", "cloth", "silver", "gold", "diamond", "camels"]`,
so a camel is the value 6).  Python lists become Lean lists, `list.pop()`
pops from the end, dicts with consecutive integer keys become lists, and
fallible operations return `Except PyError`.
-/

set_option linter.unusedVariables false

namespace Jaipur

/-- Python runtime exceptions the engine code can raise. -/
inductive PyError
  | indexError
  | typeError
  | valueError
  | keyError
deriving DecidableEq, Repr

/-- GameEngine._types: the card names; index 6 ("camels") is the camel card. -/
def types : List String := ["leather", "spice", "cloth", "silver", "gold", "diamond", "camels"]

/-- Python list indexing l[i] for a nonnegative index: IndexError when out of range. -/
def pyGet {α : Type} (l : List α) (i : Nat) : Except PyError α :=
  if h : i < l.length then .ok (l.get ⟨i, h⟩) else .error .indexError

/-- Python assignment l[i] = v: IndexError when the index is out of range. -/
def pySet {α : Type} (l : List α) (i : Nat) (v : α) : Except PyError (List α) :=
  if i < l.length then .ok (l.set i v) else .error .indexError

/-- Python list.pop(i): removes and returns the element at index i. -/
def pyPop {α : Type} (l : List α) (i : Nat) : Except PyError (α × List α) :=
  if h : i < l.length then .ok (l.get ⟨i, h⟩, l.eraseIdx i) else .error .indexError

/-- Python list.remove(v): removes the first occurrence of v, ValueError if absent. -/
def pyRemove (l : List Nat) (v : Nat) : Except PyError (List Nat) :=
  if v ∈ l then .ok (l.erase v) else .error .valueError

/-- Python max(l): ValueError on an empty list. -/
def listMax : List Nat → Except PyError Nat
  | [] => .error .valueError
  | x :: xs => .ok (xs.foldl Nat.max x)

/-- Python dict access d[k] for a dict whose keys are the consecutive integers
0..len-1 (the shape of GameEngine._tokens): KeyError when the key is missing. -/
def dictGet {α : Type} (d : List α) (k : Nat) : Except PyError α :=
  if h : k < d.length then .ok (d.get ⟨k, h⟩) else .error .keyError

/-- GameEngine.PlayerState: a seat's hand, earned value tokens and earned
bonus tokens grouped by tier (the dict keys 3, 4, 5). -/
structure PlayerState where
  hand : List Nat
  tokens : List Nat
  bonus3 : List Nat
  bonus4 : List Nat
  bonus5 : List Nat
deriving DecidableEq, Repr

/-- PlayerState.num_cards: the number of non-camel cards in the hand
(`sum(i < GameEngine._types.index("camels") for i in self.hand)`). -/
def PlayerState.num_cards (p : PlayerState) : Nat :=
  p.hand.countP (fun i => decide (i < 6))

/-- The parameters of GameEngine.do_action(top, sell_idx, grab_idx, trade_in,
trade_out); this is also the shape recorded into _last_action on success. -/
structure ActionRequest where
  top : String
  sell_idx : Option (List Nat)
  grab_idx : Option Nat
  trade_in : Option (List Nat)
  trade_out : Option (List Nat)
deriving DecidableEq, Repr

/-- The GameEngine's mutable state. -/
structure GameState where
  /-- `_tokens`: good index 0..5 mapped to its stack of values, popped from the end. -/
  tokens : List (List Nat)
  /-- `_bonus_tokens[3]`. -/
  bonus3 : List Nat
  /-- `_bonus_tokens[4]`. -/
  bonus4 : List Nat
  /-- `_bonus_tokens[5]`. -/
  bonus5 : List Nat
  /-- `_deck`, drawn from by pop() from the end. -/
  deck : List Nat
  /-- `_market`. -/
  market : List Nat
  /-- `_players[0]`. -/
  p0 : PlayerState
  /-- `_players[1]`. -/
  p1 : PlayerState
  /-- `whos_turn`, always 0 or 1 (initialized by random.choice([0, 1]) and flipped by xor 1). -/
  whosTurn : Fin 2
  /-- `_last_action`. -/
  lastAction : Option ActionRequest
deriving DecidableEq, Repr

/-- self._players[i]. -/
def getPlayer (s : GameState) (i : Fin 2) : PlayerState :=
  if i.val = 0 then s.p0 else s.p1

/-- Replace self._players[i]. -/
def setPlayer (s : GameState) (i : Fin 2) (p : PlayerState) : GameState :=
  if i.val = 0 then { s with p0 := p } else { s with p1 := p }

/-- whos_turn ^ 1: for a value in {0, 1}, xor with 1 equals 1 - value. -/
def flipSeat (i : Fin 2) : Fin 2 := ⟨1 - i.val, by omega⟩

/-- self._players[self.whos_turn]. -/
def curPlayer (s : GameState) : PlayerState := getPlayer s s.whosTurn

/-- self._players[self.whos_turn].hand. -/
def curHand (s : GameState) : List Nat := (curPlayer s).hand

/-- Replace the acting player. -/
def setCurPlayer (s : GameState) (p : PlayerState) : GameState := setPlayer s s.whosTurn p

/-- Replace the acting player's hand. -/
def setCurHand (s : GameState) (h : List Nat) : GameState :=
  setCurPlayer s { curPlayer s with hand := h }

/-- hand.append(c) on the acting player. -/
def appendToHand (s : GameState) (c : Nat) : GameState :=
  setCurHand s (curHand s ++ [c])

/-- GameEngine.is_done: the empty-stack count must exceed 3, or the deck must
be empty. -/
def is_done (s : GameState) : Bool :=
  decide (s.tokens.countP (fun l => l.isEmpty) > 3) || decide (s.deck.length = 0)

/-- GameEngine._replenish_market: pop the last card of the deck and append it
to the market; an empty deck is tolerated (the IndexError is caught). -/
def replenish_market (s : GameState) : GameState :=
  match s.deck.getLast? with
  | none => s
  | some c => { s with deck := s.deck.dropLast, market := s.market ++ [c] }

/-- np.where(np.array(market) == camel_idx)[0]: the increasing list of market
indices holding a camel. -/
def marketCamelIdxs (market : List Nat) : List Nat :=
  (List.range market.length).filter (fun i => market.getD i 0 == 6)

/-- The comprehension [v for i, v in enumerate(market) if i not in idxs]. -/
def removeIdxs {α : Type} (m : List α) (idxs : List Nat) : List α :=
  (m.enum.filter (fun p => !(idxs.contains p.1))).map Prod.snd

/-- The take-camels loop, run once per camel found in the market: append a
camel to the acting player's hand and replenish the market. -/
def takeCamelsLoop : Nat → GameState → GameState
  | 0, s => s
  | k + 1, s => takeCamelsLoop k (replenish_market (appendToHand s 6))

/-- GameEngine._do_take_camels. -/
def do_take_camels (s : GameState) : Bool × GameState :=
  if (marketCamelIdxs s.market).length = 0 then (false, s)
  else
    let s1 := takeCamelsLoop (marketCamelIdxs s.market).length s
    (true, { s1 with market := removeIdxs s1.market (marketCamelIdxs s.market) })

/-- GameEngine._do_grab_card. -/
def do_grab_card (s : GameState) (grab_idx : Nat) : Except PyError (Bool × GameState) :=
  if (curPlayer s).num_cards = 7 then .ok (false, s)
  else
    match pyPop s.market grab_idx with
    | .error e => .error e
    | .ok (card, market1) =>
      .ok (true, replenish_market (appendToHand { s with market := market1 } card))

/-- The sell type-check loop: `for idx in sell_idx: if hand[idx] != selling_type`. -/
def allSameType (hand : List Nat) (t : Nat) : List Nat → Except PyError Bool
  | [] => .ok true
  | i :: rest =>
    match pyGet hand i with
    | .error e => .error e
    | .ok c => if c ≠ t then .ok false else allSameType hand t rest

/-- One value-token award: if _tokens[g] is nonempty, pop its last value onto
the acting player's token list. -/
def awardToken (s : GameState) (g : Nat) : Except PyError GameState :=
  match dictGet s.tokens g with
  | .error e => .error e
  | .ok stack =>
    match stack.getLast? with
    | none => .ok s
    | some v =>
      let s1 : GameState := { s with tokens := s.tokens.set g stack.dropLast }
      .ok (setCurPlayer s1 { curPlayer s1 with tokens := (curPlayer s1).tokens ++ [v] })

/-- The sell mutation loop, one iteration per index sold: remove one card of
the sold type from the hand, then award a value token if the bank stack for
that good is nonempty. -/
def sellLoop (g : Nat) : Nat → GameState → Except PyError GameState
  | 0, s => .ok s
  | n + 1, s =>
    match pyRemove (curHand s) g with
    | .error e => .error e
    | .ok hand1 =>
      match awardToken (setCurHand s hand1) g with
      | .error e => .error e
      | .ok s1 => sellLoop g n s1

/-- The bonus-token award after selling n cards; popping an empty tier stack
raises IndexError which the source catches, so an empty stack is a no-op. -/
def sellBonus (s : GameState) (n : Nat) : GameState :=
  if n = 3 then
    match s.bonus3.getLast? with
    | none => s
    | some v =>
      let s1 : GameState := { s with bonus3 := s.bonus3.dropLast }
      setCurPlayer s1 { curPlayer s1 with bonus3 := (curPlayer s1).bonus3 ++ [v] }
  else if n = 4 then
    match s.bonus4.getLast? with
    | none => s
    | some v =>
      let s1 : GameState := { s with bonus4 := s.bonus4.dropLast }
      setCurPlayer s1 { curPlayer s1 with bonus4 := (curPlayer s1).bonus4 ++ [v] }
  else if n ≥ 5 then
    match s.bonus5.getLast? with
    | none => s
    | some v =>
      let s1 : GameState := { s with bonus5 := s.bonus5.dropLast }
      setCurPlayer s1 { curPlayer s1 with bonus5 := (curPlayer s1).bonus5 ++ [v] }
  else s

/-- GameEngine._do_sell_cards. -/
def do_sell_cards (s : GameState) (sell_idx : List Nat) : Except PyError (Bool × GameState) :=
  match listMax sell_idx with
  | .error e => .error e
  | .ok m =>
    if m > (curHand s).length then .ok (false, s)
    else if sell_idx.length ≠ sell_idx.dedup.length then .ok (false, s)
    else
      match pyGet sell_idx 0 with
      | .error e => .error e
      | .ok i0 =>
        match pyGet (curHand s) i0 with
        | .error e => .error e
        | .ok selling_type =>
          match allSameType (curHand s) selling_type sell_idx with
          | .error e => .error e
          | .ok same =>
            if same = false then .ok (false, s)
            else if selling_type = 6 then .ok (false, s)
            else
              match sellLoop selling_type sell_idx.length s with
              | .error e => .error e
              | .ok s1 => .ok (true, sellBonus s1 sell_idx.length)

/-- The trade camel check: `for idx in trade_in: if market[idx] == camel_num`. -/
def camelInTradeIn (market : List Nat) : List Nat → Except PyError Bool
  | [] => .ok false
  | i :: rest =>
    match pyGet market i with
    | .error e => .error e
    | .ok c => if c = 6 then .ok true else camelInTradeIn market rest

/-- set(a).isdisjoint(b). -/
def disjointTypes (a b : List Nat) : Bool := a.all (fun t => !(b.contains t))

/-- The trade swap loop over zip(trade_in, trade_out): a positional exchange
of hand[out_idx] and market[in_idx]. -/
def tradeLoop : List (Nat × Nat) → GameState → Except PyError GameState
  | [], s => .ok s
  | (in_idx, out_idx) :: rest, s =>
    match pyGet (curHand s) out_idx with
    | .error e => .error e
    | .ok temp =>
      match pyGet s.market in_idx with
      | .error e => .error e
      | .ok mcard =>
        match pySet (curHand s) out_idx mcard with
        | .error e => .error e
        | .ok hand1 =>
          match pySet s.market in_idx temp with
          | .error e => .error e
          | .ok market1 => tradeLoop rest { setCurHand s hand1 with market := market1 }

/-- GameEngine._do_trade_cards. -/
def do_trade_cards (s : GameState) (trade_in trade_out : List Nat) :
    Except PyError (Bool × GameState) :=
  if trade_in.length ≠ trade_out.length then .ok (false, s)
  else if trade_in.length ≤ 1 then .ok (false, s)
  else
    match listMax trade_out with
    | .error e => .error e
    | .ok mo =>
      if mo > (curHand s).length then .ok (false, s)
      else if trade_out.length ≠ trade_out.dedup.length then .ok (false, s)
      else
        match listMax trade_in with
        | .error e => .error e
        | .ok mi =>
          if mi > s.market.length then .ok (false, s)
          else if trade_in.length ≠ trade_in.dedup.length then .ok (false, s)
          else
            match camelInTradeIn s.market trade_in with
            | .error e => .error e
            | .ok true => .ok (false, s)
            | .ok false =>
              match trade_in.mapM (pyGet s.market) with
              | .error e => .error e
              | .ok in_types =>
                match trade_out.mapM (pyGet (curHand s)) with
                | .error e => .error e
                | .ok out_types =>
                  if disjointTypes in_types out_types = false then .ok (false, s)
                  else
                    match tradeLoop (trade_in.zip trade_out) s with
                    | .error e => .error e
                    | .ok s1 => .ok (true, s1)

/-- The top-level dispatch of GameEngine.do_action: pick the handler from the
action letter, after the truthiness checks on the optional parameters
(`if not sell_idx`, `if grab_idx is None`, `if not trade_in or not trade_out`);
an unrecognized letter fails. -/
def dispatch (s : GameState) (req : ActionRequest) : Except PyError (Bool × GameState) :=
  if req.top = "c" then .ok (do_take_camels s)
  else if req.top = "s" then
    match req.sell_idx with
    | none => .ok (false, s)
    | some [] => .ok (false, s)
    | some (i :: rest) => do_sell_cards s (i :: rest)
  else if req.top = "g" then
    match req.grab_idx with
    | none => .ok (false, s)
    | some i => do_grab_card s i
  else if req.top = "t" then
    match req.trade_in, req.trade_out with
    | some (a :: ra), some (b :: rb) => do_trade_cards s (a :: ra) (b :: rb)
    | _, _ => .ok (false, s)
  else .ok (false, s)

/-- GameEngine.do_action: run the dispatched handler, then on success sort the
acting player's hand, flip whos_turn and record the action parameters. -/
def do_action (s : GameState) (req : ActionRequest) : Except PyError (Bool × GameState) :=
  match dispatch s req with
  | .error e => .error e
  | .ok (false, s1) => .ok (false, s1)
  | .ok (true, s1) =>
    let sorted := setCurHand s1 ((curPlayer s1).hand.insertionSort (· ≤ ·))
    .ok (true, { sorted with whosTurn := flipSeat sorted.whosTurn, lastAction := some req })

/-- The result shape of GameEngine.get_scores: a bare token-sum list before
the game is done, or the final score list together with the winning seat. -/
inductive ScoreResult
  | running (t : List Nat)
  | final (scores : List Nat) (winner : Option Nat)
deriving DecidableEq, Repr

/-- GameEngine.get_scores. -/
def get_scores (s : GameState) : ScoreResult :=
  if is_done s = false then .running [s.p0.tokens.sum, s.p1.tokens.sum]
  else
    let base0 := s.p0.tokens.sum + (s.p0.bonus3.sum + s.p0.bonus4.sum + s.p0.bonus5.sum)
    let base1 := s.p1.tokens.sum + (s.p1.bonus3.sum + s.p1.bonus4.sum + s.p1.bonus5.sum)
    let camels0 := s.p0.hand.count 6
    let camels1 := s.p1.hand.count 6
    let score0 := if camels0 > camels1 then base0 + 5 else base0
    let score1 := if camels1 > camels0 then base1 + 5 else base1
    let winner : Option Nat :=
      if score0 > score1 then some 0
      else if score1 > score0 then some 1
      else
        let nb0 := s.p0.bonus3.length + s.p0.bonus4.length + s.p0.bonus5.length
        let nb1 := s.p1.bonus3.length + s.p1.bonus4.length + s.p1.bonus5.length
        if nb0 > nb1 then some 0
        else if nb1 > nb0 then some 1
        else
          if s.p0.tokens.length > s.p1.tokens.length then some 0
          else if s.p1.tokens.length > s.p0.tokens.length then some 1
          else none
    .final [score0, score1] winner

/-- The dict returned by GameEngine.get_state, as a record. -/
structure StateView where
  num_deck : Nat
  market : List String
  tokens_left : List (String × List Nat)
  bonus_num_left : List (Nat × Nat)
  my_hand : List String
  my_tokens : List Nat
  my_bonus_num_tokens : List (Nat × Nat)
  enemy_num_goods : Nat
  enemy_num_camels : Nat
  enemy_tokens : List Nat
  enemy_bonus_num_tokens : List (Nat × Nat)
deriving DecidableEq, Repr

/-- self._types[idx]: IndexError when idx is not a card value. -/
def typeName (idx : Nat) : Except PyError String :=
  if h : idx < types.length then .ok (types.get ⟨idx, h⟩) else .error .indexError

/-- Unpacking a Python int into a pair raises TypeError: the comprehension
`{self._types[key]:value for key,value in self._tokens}` iterates the dict's
integer keys (there is no .items() call) and tries to unpack each key. -/
def unpackPair (k : Nat) : Except PyError (Nat × Nat) := .error .typeError

/-- GameEngine.get_state: the dict literal evaluates its entries in order
(num_deck, market, tokens_left, ...), so the tokens_left comprehension runs
after the market comprehension. -/
def get_state (s : GameState) : Except PyError StateView :=
  match s.market.mapM typeName with
  | .error e => .error e
  | .ok marketNames =>
    match (List.range s.tokens.length).mapM unpackPair with
    | .error e => .error e
    | .ok _ =>
      match (curPlayer s).hand.mapM typeName with
      | .error e => .error e
      | .ok myHandNames =>
        let enemy := getPlayer s (flipSeat s.whosTurn)
        .ok { num_deck := s.deck.length
              market := marketNames
              tokens_left := []
              bonus_num_left := [(3, s.bonus3.length), (4, s.bonus4.length), (5, s.bonus5.length)]
              my_hand := myHandNames
              my_tokens := (curPlayer s).tokens
              my_bonus_num_tokens := [(3, (curPlayer s).bonus3.length),
                                      (4, (curPlayer s).bonus4.length),
                                      (5, (curPlayer s).bonus5.length)]
              enemy_num_goods := enemy.num_cards
              enemy_num_camels := enemy.hand.length - enemy.num_cards
              enemy_tokens := enemy.tokens
              enemy_bonus_num_tokens := [(3, enemy.bonus3.length),
                                         (4, enemy.bonus4.length),
                                         (5, enemy.bonus5.length)] }

/-- The card total the conservation property speaks about:
count(deck) + count(market) + count(hand of seat 0) + count(hand of seat 1). -/
def totalCards (s : GameState) : Nat :=
  s.deck.length + s.market.length + s.p0.hand.length + s.p1.hand.length

end Jaipur

namespace Jaipur

/-! ### Basic state-accessor lemmas -/

theorem setPlayer_whosTurn (s : GameState) (i : Fin 2) (p : PlayerState) :
    (setPlayer s i p).whosTurn = s.whosTurn := by
  unfold setPlayer; split <;> rfl

theorem setPlayer_lastAction (s : GameState) (i : Fin 2) (p : PlayerState) :
    (setPlayer s i p).lastAction = s.lastAction := by
  unfold setPlayer; split <;> rfl

theorem setPlayer_deck (s : GameState) (i : Fin 2) (p : PlayerState) :
    (setPlayer s i p).deck = s.deck := by
  unfold setPlayer; split <;> rfl

theorem setPlayer_market (s : GameState) (i : Fin 2) (p : PlayerState) :
    (setPlayer s i p).market = s.market := by
  unfold setPlayer; split <;> rfl

theorem setPlayer_tokens (s : GameState) (i : Fin 2) (p : PlayerState) :
    (setPlayer s i p).tokens = s.tokens := by
  unfold setPlayer; split <;> rfl

theorem getPlayer_setPlayer (s : GameState) (i : Fin 2) (p : PlayerState) :
    getPlayer (setPlayer s i p) i = p := by
  unfold getPlayer setPlayer
  by_cases h : i.val = 0 <;> simp [h]

/-- Total hand size of both seats. -/
def handSum (s : GameState) : Nat := s.p0.hand.length + s.p1.hand.length

theorem totalCards_eq (s : GameState) :
    totalCards s = s.deck.length + s.market.length + handSum s := by
  unfold totalCards handSum; omega

theorem handSum_setPlayer (s : GameState) (i : Fin 2) (p : PlayerState) :
    handSum (setPlayer s i p) + (getPlayer s i).hand.length = handSum s + p.hand.length := by
  unfold handSum setPlayer getPlayer
  by_cases h : i.val = 0 <;> simp [h] <;> omega

theorem handSum_setPlayer_same (s : GameState) (i : Fin 2) (p : PlayerState)
    (hh : p.hand = (getPlayer s i).hand) : handSum (setPlayer s i p) = handSum s := by
  have := handSum_setPlayer s i p
  rw [hh] at this
  omega

/-! ### Market replenishment -/

theorem replenish_market_players (s : GameState) :
    (replenish_market s).p0 = s.p0 ∧ (replenish_market s).p1 = s.p1 ∧
    (replenish_market s).whosTurn = s.whosTurn ∧
    (replenish_market s).lastAction = s.lastAction := by
  unfold replenish_market
  cases h : s.deck.getLast? <;> simp

theorem replenish_market_counts (s : GameState) :
    (replenish_market s).deck.length + (replenish_market s).market.length =
      s.deck.length + s.market.length ∧
    s.market.length ≤ (replenish_market s).market.length := by
  unfold replenish_market
  cases h : s.deck.getLast? with
  | none => simp
  | some c =>
    have hne : s.deck ≠ [] := by
      intro he; rw [he] at h; simp at h
    have : s.deck.length ≠ 0 := fun h0 => hne (List.length_eq_zero.mp h0)
    simp [List.length_dropLast]
    omega

theorem totalCards_replenish (s : GameState) :
    totalCards (replenish_market s) = totalCards s := by
  have h1 := replenish_market_players s
  have h2 := replenish_market_counts s
  rw [totalCards_eq, totalCards_eq]
  unfold handSum
  rw [h1.1, h1.2.1]
  omega

/-! ### Take camels -/

theorem appendToHand_fields (s : GameState) (c : Nat) :
    (appendToHand s c).deck = s.deck ∧ (appendToHand s c).market = s.market ∧
    (appendToHand s c).whosTurn = s.whosTurn ∧
    (appendToHand s c).lastAction = s.lastAction ∧
    handSum (appendToHand s c) = handSum s + 1 := by
  unfold appendToHand setCurHand setCurPlayer setPlayer curHand curPlayer getPlayer handSum
  by_cases h : s.whosTurn.val = 0 <;> simp [h] <;> omega

theorem totalCards_appendToHand (s : GameState) (c : Nat) :
    totalCards (appendToHand s c) = totalCards s + 1 := by
  have := appendToHand_fields s c
  rw [totalCards_eq, totalCards_eq, this.1, this.2.1, this.2.2.2.2]
  omega

theorem takeCamelsLoop_spec (k : Nat) (s : GameState) :
    totalCards (takeCamelsLoop k s) = totalCards s + k ∧
    s.market.length ≤ (takeCamelsLoop k s).market.length ∧
    (takeCamelsLoop k s).whosTurn = s.whosTurn ∧
    (takeCamelsLoop k s).lastAction = s.lastAction := by
  induction k generalizing s with
  | zero => simp [takeCamelsLoop]
  | succ k ih =>
    have happ := appendToHand_fields s 6
    have hrep1 := replenish_market_players (appendToHand s 6)
    have hrep2 := replenish_market_counts (appendToHand s 6)
    have htc : totalCards (replenish_market (appendToHand s 6)) = totalCards s + 1 := by
      rw [totalCards_replenish, totalCards_appendToHand]
    have hml : s.market.length ≤ (replenish_market (appendToHand s 6)).market.length := by
      rw [← happ.2.1]; exact hrep2.2
    have ihh := ih (replenish_market (appendToHand s 6))
    unfold takeCamelsLoop
    refine ⟨?_, ?_, ?_, ?_⟩
    · rw [ihh.1, htc]; omega
    · exact le_trans hml ihh.2.1
    · rw [ihh.2.2.1, hrep1.2.2.1, happ.2.2.1]
    · rw [ihh.2.2.2, hrep1.2.2.2, happ.2.2.2.1]

end Jaipur

namespace Jaipur

/-! ### Counting elements kept by removeIdxs -/

theorem countP_enum {α : Type} (m : List α) (q : Nat → Bool) :
    m.enum.countP (fun p => q p.1) = (List.range m.length).countP q := by
  have h := List.countP_map q Prod.fst m.enum
  rw [List.enum_map_fst] at h
  exact h.symm

theorem countP_range_mem (idxs : List Nat) (M : Nat) (hnd : idxs.Nodup)
    (hlt : ∀ i ∈ idxs, i < M) :
    (List.range M).countP (fun i => idxs.contains i) = idxs.length := by
  rw [List.countP_eq_length_filter]
  have hperm : List.Perm ((List.range M).filter (fun i => idxs.contains i)) idxs := by
    apply List.perm_of_nodup_nodup_toFinset_eq
    · exact (List.nodup_range M).filter _
    · exact hnd
    · ext x
      simp only [List.mem_toFinset, List.mem_filter, List.mem_range, List.contains, List.elem_iff]
      constructor
      · intro hx; exact hx.2
      · intro hx; exact ⟨hlt x hx, hx⟩
  exact hperm.length_eq

theorem length_removeIdxs {α : Type} (m : List α) (idxs : List Nat)
    (hnd : idxs.Nodup) (hlt : ∀ i ∈ idxs, i < m.length) :
    (removeIdxs m idxs).length + idxs.length = m.length := by
  unfold removeIdxs
  rw [List.length_map, ← List.countP_eq_length_filter]
  have h1 : m.enum.countP (fun p => !(idxs.contains p.1)) =
      (List.range m.length).countP (fun i => !(idxs.contains i)) :=
    countP_enum m (fun i => !(idxs.contains i))
  rw [h1]
  have h2 := countP_range_mem idxs m.length hnd hlt
  have h3 := List.length_eq_countP_add_countP (fun i => idxs.contains i) (List.range m.length)
  rw [List.length_range] at h3
  have h4 : (List.range m.length).countP (fun a => ¬ (fun i => idxs.contains i) a) =
      (List.range m.length).countP (fun i => !(idxs.contains i)) := by
    apply List.countP_congr
    intro a _
    simp
  rw [h4] at h3
  omega

theorem marketCamelIdxs_nodup (m : List Nat) : (marketCamelIdxs m).Nodup :=
  (List.nodup_range _).filter _

theorem marketCamelIdxs_lt (m : List Nat) : ∀ i ∈ marketCamelIdxs m, i < m.length := by
  intro i hi
  unfold marketCamelIdxs at hi
  exact List.mem_range.mp (List.mem_of_mem_filter hi)

/-! ### Frame lemmas for player updates -/

theorem setPlayer_hands (s : GameState) (i : Fin 2) (p : PlayerState)
    (hh : p.hand = (getPlayer s i).hand) :
    (setPlayer s i p).p0.hand = s.p0.hand ∧ (setPlayer s i p).p1.hand = s.p1.hand := by
  unfold setPlayer getPlayer at *
  by_cases h : i.val = 0 <;> simp [h] at hh ⊢ <;> simp [hh]

theorem setCurPlayer_frame (s : GameState) (p : PlayerState)
    (hh : p.hand = (curPlayer s).hand) :
    totalCards (setCurPlayer s p) = totalCards s ∧
    (setCurPlayer s p).whosTurn = s.whosTurn ∧
    (setCurPlayer s p).lastAction = s.lastAction := by
  unfold setCurPlayer curPlayer at *
  refine ⟨?_, setPlayer_whosTurn .., setPlayer_lastAction ..⟩
  rw [totalCards_eq, totalCards_eq, setPlayer_deck, setPlayer_market,
    handSum_setPlayer_same s s.whosTurn p hh]

theorem totalCards_setCurHand (s : GameState) (hd : List Nat) :
    totalCards (setCurHand s hd) + (curHand s).length = totalCards s + hd.length := by
  unfold totalCards setCurHand setCurPlayer setPlayer curHand curPlayer getPlayer
  by_cases h : s.whosTurn.val = 0 <;> simp [h] <;> omega

theorem setCurHand_frame (s : GameState) (hd : List Nat) :
    (setCurHand s hd).whosTurn = s.whosTurn ∧ (setCurHand s hd).lastAction = s.lastAction ∧
    (setCurHand s hd).deck = s.deck ∧ (setCurHand s hd).market = s.market ∧
    (setCurHand s hd).tokens = s.tokens := by
  unfold setCurHand setCurPlayer
  exact ⟨setPlayer_whosTurn .., setPlayer_lastAction .., setPlayer_deck ..,
    setPlayer_market .., setPlayer_tokens ..⟩

/-! ### The take-camels handler -/

theorem do_take_camels_spec (s : GameState) (b : Bool) (t : GameState)
    (h : do_take_camels s = (b, t)) :
    t.whosTurn = s.whosTurn ∧ t.lastAction = s.lastAction ∧
    (b = false → t = s) ∧ (b = true → totalCards t = totalCards s) := by
  unfold do_take_camels at h
  split at h
  · simp only [Prod.mk.injEq] at h
    obtain ⟨hb, ht⟩ := h
    subst hb; subst ht
    simp
  · simp only [Prod.mk.injEq] at h
    obtain ⟨hb, ht⟩ := h
    subst hb
    have hloop := takeCamelsLoop_spec (marketCamelIdxs s.market).length s
    have hlen := length_removeIdxs (takeCamelsLoop (marketCamelIdxs s.market).length s).market
      (marketCamelIdxs s.market) (marketCamelIdxs_nodup s.market)
      (fun i hi => lt_of_lt_of_le (marketCamelIdxs_lt s.market i hi) hloop.2.1)
    have hdeck : t.deck = (takeCamelsLoop (marketCamelIdxs s.market).length s).deck := by
      rw [← ht]
    have hmarket : t.market = removeIdxs (takeCamelsLoop (marketCamelIdxs s.market).length s).market
        (marketCamelIdxs s.market) := by
      rw [← ht]
    have hp0 : t.p0 = (takeCamelsLoop (marketCamelIdxs s.market).length s).p0 := by
      rw [← ht]
    have hp1 : t.p1 = (takeCamelsLoop (marketCamelIdxs s.market).length s).p1 := by
      rw [← ht]
    have hwho : t.whosTurn = (takeCamelsLoop (marketCamelIdxs s.market).length s).whosTurn := by
      rw [← ht]
    have hla : t.lastAction = (takeCamelsLoop (marketCamelIdxs s.market).length s).lastAction := by
      rw [← ht]
    refine ⟨by rw [hwho, hloop.2.2.1], by rw [hla, hloop.2.2.2], by simp, ?_⟩
    intro _
    have e1 : totalCards t = t.deck.length + t.market.length + t.p0.hand.length +
        t.p1.hand.length := rfl
    have e2 : totalCards (takeCamelsLoop (marketCamelIdxs s.market).length s) =
        (takeCamelsLoop (marketCamelIdxs s.market).length s).deck.length +
        (takeCamelsLoop (marketCamelIdxs s.market).length s).market.length +
        (takeCamelsLoop (marketCamelIdxs s.market).length s).p0.hand.length +
        (takeCamelsLoop (marketCamelIdxs s.market).length s).p1.hand.length := rfl
    have h1 := hloop.1
    rw [e1, hdeck, hmarket, hp0, hp1]
    omega

end Jaipur

namespace Jaipur

/-! ### The grab handler -/

theorem do_grab_card_spec (s : GameState) (gi : Nat) (b : Bool) (t : GameState)
    (h : do_grab_card s gi = .ok (b, t)) :
    t.whosTurn = s.whosTurn ∧ t.lastAction = s.lastAction ∧
    (b = false → t = s) ∧ (b = true → totalCards t = totalCards s) := by
  unfold do_grab_card at h
  split at h
  · simp only [Except.ok.injEq, Prod.mk.injEq] at h
    obtain ⟨hb, ht⟩ := h
    subst hb; subst ht
    simp
  · split at h
    · simp at h
    · rename_i card market1 heq
      simp only [Except.ok.injEq, Prod.mk.injEq] at h
      obtain ⟨hb, ht⟩ := h
      subst hb
      have hrep := replenish_market_players (appendToHand { s with market := market1 } card)
      have happ := appendToHand_fields { s with market := market1 } card
      refine ⟨?_, ?_, by simp, ?_⟩
      · rw [← ht, hrep.2.2.1, happ.2.2.1]
      · rw [← ht, hrep.2.2.2, happ.2.2.2.1]
      · intro _
        unfold pyPop at heq
        split at heq
        · rename_i hlt
          simp only [Except.ok.injEq, Prod.mk.injEq] at heq
          obtain ⟨hcard, hm1⟩ := heq
          have hm1len : market1.length + 1 = s.market.length := by
            rw [← hm1]
            have := List.length_eraseIdx (l := s.market) (i := gi)
            simp [hlt] at this
            omega
          have e1 : totalCards { s with market := market1 } = s.deck.length + market1.length +
              s.p0.hand.length + s.p1.hand.length := rfl
          have e2 : totalCards s = s.deck.length + s.market.length +
              s.p0.hand.length + s.p1.hand.length := rfl
          have e3 := totalCards_appendToHand { s with market := market1 } card
          have e4 := totalCards_replenish (appendToHand { s with market := market1 } card)
          rw [← ht]
          omega
        · simp at heq

/-! ### The sell handler -/

theorem awardToken_spec (s : GameState) (g : Nat) (t : GameState)
    (h : awardToken s g = .ok t) :
    totalCards t = totalCards s ∧ t.whosTurn = s.whosTurn ∧ t.lastAction = s.lastAction := by
  unfold awardToken at h
  split at h
  · simp at h
  · split at h
    · simp only [Except.ok.injEq] at h
      subst h
      simp
    · simp only [Except.ok.injEq] at h
      subst h
      refine ⟨(setCurPlayer_frame _ _ (by rfl)).1, (setCurPlayer_frame _ _ (by rfl)).2.1,
        (setCurPlayer_frame _ _ (by rfl)).2.2⟩

theorem sellLoop_spec (g n : Nat) (s t : GameState)
    (h : sellLoop g n s = .ok t) :
    totalCards t + n = totalCards s ∧ t.whosTurn = s.whosTurn ∧ t.lastAction = s.lastAction := by
  induction n generalizing s with
  | zero =>
    unfold sellLoop at h
    simp only [Except.ok.injEq] at h
    subst h
    simp
  | succ n ih =>
    unfold sellLoop at h
    split at h
    · simp at h
    · rename_i hand1 hrem
      split at h
      · simp at h
      · rename_i s1 haw
        have hrec := ih s1 h
        have haws := awardToken_spec (setCurHand s hand1) g s1 haw
        unfold pyRemove at hrem
        split at hrem
        · rename_i hmem
          simp only [Except.ok.injEq] at hrem
          have hlen : hand1.length + 1 = (curHand s).length := by
            rw [← hrem]
            have h1 := List.length_erase_of_mem hmem
            have h2 : 1 ≤ (curHand s).length := List.length_pos.mpr (List.ne_nil_of_mem hmem)
            omega
          have hset := totalCards_setCurHand s hand1
          have hset2 := setCurHand_frame s hand1
          refine ⟨?_, ?_, ?_⟩
          · have e1 := hrec.1
            have e2 := haws.1
            omega
          · rw [hrec.2.1, haws.2.1, hset2.1]
          · rw [hrec.2.2, haws.2.2, hset2.2.1]
        · simp at hrem

theorem sellBonus_spec (s : GameState) (n : Nat) :
    totalCards (sellBonus s n) = totalCards s ∧ (sellBonus s n).whosTurn = s.whosTurn ∧
    (sellBonus s n).lastAction = s.lastAction := by
  unfold sellBonus
  split_ifs with h3 h4 h5
  · cases hb : s.bonus3.getLast? with
    | none => simp [hb]
    | some v =>
      simp only [hb]
      refine ⟨(setCurPlayer_frame _ _ (by rfl)).1, (setCurPlayer_frame _ _ (by rfl)).2.1,
        (setCurPlayer_frame _ _ (by rfl)).2.2⟩
  · cases hb : s.bonus4.getLast? with
    | none => simp [hb]
    | some v =>
      simp only [hb]
      refine ⟨(setCurPlayer_frame _ _ (by rfl)).1, (setCurPlayer_frame _ _ (by rfl)).2.1,
        (setCurPlayer_frame _ _ (by rfl)).2.2⟩
  · cases hb : s.bonus5.getLast? with
    | none => simp [hb]
    | some v =>
      simp only [hb]
      refine ⟨(setCurPlayer_frame _ _ (by rfl)).1, (setCurPlayer_frame _ _ (by rfl)).2.1,
        (setCurPlayer_frame _ _ (by rfl)).2.2⟩
  · simp

theorem do_sell_cards_spec (s : GameState) (idxs : List Nat) (b : Bool) (t : GameState)
    (h : do_sell_cards s idxs = .ok (b, t)) :
    t.whosTurn = s.whosTurn ∧ t.lastAction = s.lastAction ∧
    (b = false → t = s) ∧ (b = true → totalCards t + idxs.length = totalCards s) := by
  unfold do_sell_cards at h
  split at h
  · simp at h
  · split at h
    · simp only [Except.ok.injEq, Prod.mk.injEq] at h
      obtain ⟨hb, ht⟩ := h; subst hb; subst ht; simp
    · split at h
      · simp only [Except.ok.injEq, Prod.mk.injEq] at h
        obtain ⟨hb, ht⟩ := h; subst hb; subst ht; simp
      · split at h
        · simp at h
        · split at h
          · simp at h
          · split at h
            · simp at h
            · split at h
              · simp only [Except.ok.injEq, Prod.mk.injEq] at h
                obtain ⟨hb, ht⟩ := h; subst hb; subst ht; simp
              · split at h
                · simp only [Except.ok.injEq, Prod.mk.injEq] at h
                  obtain ⟨hb, ht⟩ := h; subst hb; subst ht; simp
                · split at h
                  · simp at h
                  · rename_i s1 hloop
                    simp only [Except.ok.injEq, Prod.mk.injEq] at h
                    obtain ⟨hb, ht⟩ := h; subst hb
                    have hl := sellLoop_spec _ _ _ _ hloop
                    have hbn := sellBonus_spec s1 idxs.length
                    refine ⟨?_, ?_, by simp, ?_⟩
                    · rw [← ht, hbn.2.1, hl.2.1]
                    · rw [← ht, hbn.2.2, hl.2.2]
                    · intro _
                      rw [← ht]
                      have e1 := hbn.1
                      have e2 := hl.1
                      omega

/-! ### The trade handler -/

theorem tradeLoop_spec (l : List (Nat × Nat)) (s t : GameState)
    (h : tradeLoop l s = .ok t) :
    totalCards t = totalCards s ∧ t.whosTurn = s.whosTurn ∧ t.lastAction = s.lastAction := by
  induction l generalizing s with
  | nil =>
    unfold tradeLoop at h
    simp only [Except.ok.injEq] at h
    subst h
    simp
  | cons pair rest ih =>
    obtain ⟨in_idx, out_idx⟩ := pair
    unfold tradeLoop at h
    split at h
    · simp at h
    · split at h
      · simp at h
      · split at h
        · simp at h
        · rename_i hand1 hset1
          split at h
          · simp at h
          · rename_i market1 hset2
            have hrec := ih _ h
            unfold pySet at hset1 hset2
            split at hset1
            · simp only [Except.ok.injEq] at hset1
              split at hset2
              · simp only [Except.ok.injEq] at hset2
                have hh1 : hand1.length = (curHand s).length := by
                  rw [← hset1, List.length_set]
                have hm1 : market1.length = s.market.length := by
                  rw [← hset2, List.length_set]
                have hf := setCurHand_frame s hand1
                have htc := totalCards_setCurHand s hand1
                have e1 : totalCards { setCurHand s hand1 with market := market1 } =
                    (setCurHand s hand1).deck.length + market1.length +
                    (setCurHand s hand1).p0.hand.length + (setCurHand s hand1).p1.hand.length := rfl
                have e2 : totalCards (setCurHand s hand1) =
                    (setCurHand s hand1).deck.length + (setCurHand s hand1).market.length +
                    (setCurHand s hand1).p0.hand.length + (setCurHand s hand1).p1.hand.length := rfl
                have ew : ({ setCurHand s hand1 with market := market1 } : GameState).whosTurn =
                    (setCurHand s hand1).whosTurn := rfl
                have el : ({ setCurHand s hand1 with market := market1 } : GameState).lastAction =
                    (setCurHand s hand1).lastAction := rfl
                refine ⟨?_, ?_, ?_⟩
                · have r1 := hrec.1
                  have hmf := hf.2.2.2.1
                  rw [hmf] at e2
                  omega
                · rw [hrec.2.1, ew, hf.1]
                · rw [hrec.2.2, el, hf.2.1]
              · simp at hset2
            · simp at hset1

theorem do_trade_cards_spec (s : GameState) (tin tout : List Nat) (b : Bool) (t : GameState)
    (h : do_trade_cards s tin tout = .ok (b, t)) :
    t.whosTurn = s.whosTurn ∧ t.lastAction = s.lastAction ∧
    (b = false → t = s) ∧ (b = true → totalCards t = totalCards s) := by
  unfold do_trade_cards at h
  split at h
  · simp only [Except.ok.injEq, Prod.mk.injEq] at h
    obtain ⟨hb, ht⟩ := h; subst hb; subst ht; simp
  · split at h
    · simp only [Except.ok.injEq, Prod.mk.injEq] at h
      obtain ⟨hb, ht⟩ := h; subst hb; subst ht; simp
    · split at h
      · simp at h
      · split at h
        · simp only [Except.ok.injEq, Prod.mk.injEq] at h
          obtain ⟨hb, ht⟩ := h; subst hb; subst ht; simp
        · split at h
          · simp only [Except.ok.injEq, Prod.mk.injEq] at h
            obtain ⟨hb, ht⟩ := h; subst hb; subst ht; simp
          · split at h
            · simp at h
            · split at h
              · simp only [Except.ok.injEq, Prod.mk.injEq] at h
                obtain ⟨hb, ht⟩ := h; subst hb; subst ht; simp
              · split at h
                · simp only [Except.ok.injEq, Prod.mk.injEq] at h
                  obtain ⟨hb, ht⟩ := h; subst hb; subst ht; simp
                · split at h
                  · simp at h
                  · simp only [Except.ok.injEq, Prod.mk.injEq] at h
                    obtain ⟨hb, ht⟩ := h; subst hb; subst ht; simp
                  · split at h
                    · simp at h
                    · split at h
                      · simp at h
                      · split at h
                        · simp only [Except.ok.injEq, Prod.mk.injEq] at h
                          obtain ⟨hb, ht⟩ := h; subst hb; subst ht; simp
                        · split at h
                          · simp at h
                          · rename_i s1 hloop
                            simp only [Except.ok.injEq, Prod.mk.injEq] at h
                            obtain ⟨hb, ht⟩ := h; subst hb
                            have hl := tradeLoop_spec _ _ _ hloop
                            refine ⟨?_, ?_, by simp, ?_⟩
                            · rw [← ht, hl.2.1]
                            · rw [← ht, hl.2.2]
                            · intro _; rw [← ht]; exact hl.1

/-! ### The do_action dispatcher -/

/-- The number of cards a request removes from play when it succeeds: a sell
discards the sold cards, every other action only moves cards around. -/
def soldCount (req : ActionRequest) : Nat :=
  if req.top = "s" then (match req.sell_idx with | some l => l.length | none => 0) else 0

theorem curHand_setCurHand (s : GameState) (hd : List Nat) :
    (getPlayer (setCurHand s hd) s.whosTurn).hand = hd := by
  unfold setCurHand setCurPlayer
  rw [getPlayer_setPlayer]

theorem dispatch_spec (s : GameState) (req : ActionRequest) (b : Bool) (t : GameState)
    (h : dispatch s req = .ok (b, t)) :
    t.whosTurn = s.whosTurn ∧ (b = false → t = s) ∧
    (b = true → totalCards t + soldCount req = totalCards s) := by
  unfold dispatch at h
  split at h
  · rename_i hc
    simp only [Except.ok.injEq] at h
    have hs := do_take_camels_spec s b t h
    refine ⟨hs.1, hs.2.2.1, fun hb => ?_⟩
    have hz : soldCount req = 0 := by simp [soldCount, hc]
    have := hs.2.2.2 hb
    omega
  · rename_i hnc
    split at h
    · rename_i hs'
      split at h
      · simp only [Except.ok.injEq, Prod.mk.injEq] at h
        obtain ⟨hb, ht⟩ := h; subst hb; subst ht; simp
      · simp only [Except.ok.injEq, Prod.mk.injEq] at h
        obtain ⟨hb, ht⟩ := h; subst hb; subst ht; simp
      · rename_i l rest hl
        have hspec := do_sell_cards_spec s _ b t h
        refine ⟨hspec.1, hspec.2.2.1, fun hb => ?_⟩
        have hz : soldCount req = (l :: rest).length := by simp [soldCount, hs', hl]
        have := hspec.2.2.2 hb
        omega
    · rename_i hns
      split at h
      · split at h
        · simp only [Except.ok.injEq, Prod.mk.injEq] at h
          obtain ⟨hb, ht⟩ := h; subst hb; subst ht; simp
        · have hspec := do_grab_card_spec s _ b t h
          refine ⟨hspec.1, hspec.2.2.1, fun hb => ?_⟩
          have hz : soldCount req = 0 := by simp [soldCount, hns]
          have := hspec.2.2.2 hb
          omega
      · split at h
        · split at h
          · have hspec := do_trade_cards_spec s _ _ b t h
            refine ⟨hspec.1, hspec.2.2.1, fun hb => ?_⟩
            have hz : soldCount req = 0 := by simp [soldCount, hns]
            have := hspec.2.2.2 hb
            omega
          · simp only [Except.ok.injEq, Prod.mk.injEq] at h
            obtain ⟨hb, ht⟩ := h; subst hb; subst ht; simp
        · simp only [Except.ok.injEq, Prod.mk.injEq] at h
          obtain ⟨hb, ht⟩ := h; subst hb; subst ht; simp

theorem do_action_spec (s : GameState) (req : ActionRequest) (b : Bool) (t : GameState)
    (h : do_action s req = .ok (b, t)) :
    (b = false → t = s) ∧
    (b = true →
      t.whosTurn = flipSeat s.whosTurn ∧ t.lastAction = some req ∧
      totalCards t + soldCount req = totalCards s ∧
      List.Sorted (· ≤ ·) (getPlayer t s.whosTurn).hand) := by
  unfold do_action at h
  split at h
  · simp at h
  · rename_i s1 heq
    simp only [Except.ok.injEq, Prod.mk.injEq] at h
    obtain ⟨hb, ht⟩ := h
    subst hb
    subst ht
    exact ⟨fun _ => (dispatch_spec s req false s1 heq).2.1 rfl, by simp⟩
  · rename_i s1 heq
    simp only [Except.ok.injEq, Prod.mk.injEq] at h
    obtain ⟨hb, ht⟩ := h
    subst hb
    refine ⟨by simp, fun _ => ?_⟩
    have hdis := dispatch_spec s req true s1 heq
    have hfacts : s1.whosTurn = s.whosTurn ∧ totalCards s1 + soldCount req = totalCards s :=
      ⟨hdis.1, hdis.2.2 rfl⟩
    have hperm : ((curPlayer s1).hand.insertionSort (· ≤ ·)).length = (curHand s1).length :=
      (List.perm_insertionSort (· ≤ ·) (curPlayer s1).hand).length_eq
    have hset := totalCards_setCurHand s1 ((curPlayer s1).hand.insertionSort (· ≤ ·))
    have hsf := setCurHand_frame s1 ((curPlayer s1).hand.insertionSort (· ≤ ·))
    have hwho : t.whosTurn =
        flipSeat (setCurHand s1 ((curPlayer s1).hand.insertionSort (· ≤ ·))).whosTurn := by
      rw [← ht]
    have hla : t.lastAction = some req := by rw [← ht]
    have htc : totalCards t =
        totalCards (setCurHand s1 ((curPlayer s1).hand.insertionSort (· ≤ ·))) := by
      rw [← ht]; rfl
    have hgp : getPlayer t s.whosTurn =
        getPlayer (setCurHand s1 ((curPlayer s1).hand.insertionSort (· ≤ ·))) s.whosTurn := by
      rw [← ht]; rfl
    refine ⟨?_, hla, ?_, ?_⟩
    · rw [hwho, hsf.1, hfacts.1]
    · rw [htc]
      have h2 := hfacts.2
      omega
    · rw [hgp, ← hfacts.1, curHand_setCurHand]
      exact List.sorted_insertionSort (· ≤ ·) (curPlayer s1).hand

/-! ### Spec-side scoring definitions (for the refinement claim about get_scores) -/

/-- Written from the spec: a seat's final score is the sum of its earned value
tokens plus the sum of its earned bonus token values, plus a camel-majority
bonus of 5 exactly when that seat holds strictly more camels in hand than the
other seat (a camel tie awards nothing). -/
def spec_seatScore (s : GameState) (i : Fin 2) : Nat :=
  (getPlayer s i).tokens.sum +
    ((getPlayer s i).bonus3.sum + (getPlayer s i).bonus4.sum + (getPlayer s i).bonus5.sum) +
    (if (getPlayer s i).hand.count 6 > (getPlayer s (flipSeat i)).hand.count 6 then 5 else 0)

/-- Written from the spec: a seat's number of earned bonus tokens, by count. -/
def spec_bonusCount (s : GameState) (i : Fin 2) : Nat :=
  (getPlayer s i).bonus3.length + (getPlayer s i).bonus4.length + (getPlayer s i).bonus5.length

/-- Written from the spec: the winner is the seat with the higher final score;
on a score tie, the seat with strictly more bonus tokens by count; if still
tied, the seat with strictly more value tokens by count; otherwise no winner
(shared victory). -/
def spec_winner (s : GameState) : Option Nat :=
  if spec_seatScore s 0 > spec_seatScore s 1 then some 0
  else if spec_seatScore s 1 > spec_seatScore s 0 then some 1
  else if spec_bonusCount s 0 > spec_bonusCount s 1 then some 0
  else if spec_bonusCount s 1 > spec_bonusCount s 0 then some 1
  else if (getPlayer s 0).tokens.length > (getPlayer s 1).tokens.length then some 0
  else if (getPlayer s 1).tokens.length > (getPlayer s 0).tokens.length then some 1
  else none

/-! ### Concrete states used by the per-claim theorems -/

/-- The freshly initialized token bank of GameEngine._reset. -/
def initTokens : List (List Nat) :=
  [[1, 1, 1, 1, 1, 1, 2, 3, 4], [1, 1, 2, 2, 3, 3, 5], [1, 1, 2, 2, 3, 3, 5],
   [5, 5, 5, 5, 5], [5, 5, 5, 6, 6], [5, 5, 5, 7, 7]]

/-- A player ledger holding only a hand. -/
def mkPlayer (h : List Nat) : PlayerState := ⟨h, [], [], [], []⟩

end Jaipur

namespace Jaipur

def c1State : GameState :=
  ⟨initTokens, [1, 1, 2], [4, 4, 5], [8, 8, 9], [0, 1], [6, 6, 6, 0, 1],
   mkPlayer [3], mkPlayer [0, 1, 2], 0, none⟩

def c1Req : ActionRequest := ⟨"s", some [0], none, none, none⟩

def c1After : GameState :=
  ⟨[[1, 1, 1, 1, 1, 1, 2, 3, 4], [1, 1, 2, 2, 3, 3, 5], [1, 1, 2, 2, 3, 3, 5],
    [5, 5, 5, 5], [5, 5, 5, 6, 6], [5, 5, 5, 7, 7]],
   [1, 1, 2], [4, 4, 5], [8, 8, 9], [0, 1], [6, 6, 6, 0, 1],
   ⟨[], [5], [], [], []⟩, mkPlayer [0, 1, 2], 1, some c1Req⟩

/-- C1: the claim says selling a single silver, gold or diamond card must fail
with BelowMinimumForGem and leave the state unchanged — but _do_sell_cards has
no gem-minimum check at all: with hand = [silver] the sale of one silver card
succeeds, removes the card, and pays out the top silver token. -/
theorem C1_single_gem_sale_accepted : do_action c1State c1Req = .ok (true, c1After) := rfl

def c2State : GameState :=
  ⟨initTokens, [], [], [], [0, 1], [6, 0, 1, 2, 3], mkPlayer [0, 1], mkPlayer [2], 0, none⟩

def c2Req : ActionRequest := ⟨"g", none, some 0, none, none⟩

def c2After : GameState :=
  ⟨initTokens, [], [], [], [0], [0, 1, 2, 3, 1], mkPlayer [0, 1, 6], mkPlayer [2], 1, some c2Req⟩

/-- C2: the claim says grabbing a market slot that holds a camel must fail with
CannotGrabCamel and leave the state unchanged — but _do_grab_card has no camel
check: grabbing market index 0, a camel, succeeds and moves the camel into the
acting player's hand. -/
theorem C2_grab_camel_accepted :
    do_action c2State c2Req = .ok (true, c2After) ∧ c2After.p0.hand.count 6 = 1 :=
  ⟨rfl, rfl⟩

def c3State : GameState :=
  ⟨[[], [], [], [5], [5], [5]], [], [], [], [0], [6, 6, 6, 0, 1],
   mkPlayer [0], mkPlayer [1], 0, none⟩

/-- C3: the claim says is_done is true as soon as at least 3 of the 6 token
stacks are empty — but is_done tests `number of empty stacks > 3`, so in a
state with exactly three empty stacks and a nonempty deck it returns false. -/
theorem C3_three_empty_stacks_not_done :
    c3State.tokens.countP (fun l => l.isEmpty) = 3 ∧ c3State.deck.length ≠ 0 ∧
    is_done c3State = false := by
  decide

def c4State : GameState :=
  ⟨initTokens, [], [], [], [0], [6, 6, 6, 0, 1], mkPlayer [0, 0, 0, 1, 2], mkPlayer [1], 0, none⟩

def c4Req : ActionRequest := ⟨"s", some [0, 5], none, none, none⟩

/-- C4: the claim says any out-of-bounds sell or trade index yields a typed
IndexOutOfRange failure and no exception ever propagates — but the bounds
check is `max(sell_idx) > len(hand)`, so the index 5 into a 5-card hand passes
validation and the subsequent hand access raises an uncaught IndexError. -/
theorem C4_sell_index_equal_length_raises :
    do_action c4State c4Req = .error .indexError := rfl

def c5State : GameState :=
  ⟨initTokens, [], [], [], [0], [3, 3, 4, 4, 5],
   mkPlayer [0, 0, 1, 1, 2, 2, 6, 6], mkPlayer [1], 0, none⟩

def c5Req : ActionRequest := ⟨"t", none, none, some [0, 1], some [6, 7]⟩

def c5After : GameState :=
  ⟨initTokens, [], [], [], [0], [6, 6, 4, 4, 5],
   ⟨[0, 0, 1, 1, 2, 2, 3, 3], [], [], [], []⟩, mkPlayer [1], 1, some c5Req⟩

/-- C5: the claim says a trade whose swap would leave more than 7 non-camel
cards in hand must fail with HandLimitExceeded — but _do_trade_cards has no
hand-limit check: trading two camels for two silvers succeeds and leaves the
acting player with 8 non-camel cards. -/
theorem C5_trade_exceeds_hand_limit_accepted :
    do_action c5State c5Req = .ok (true, c5After) ∧ c5After.p0.num_cards = 8 :=
  ⟨rfl, rfl⟩

/-- C6: every reported failure of do_action (any of the four handlers, or the
parameter checks) leaves the entire GameState unchanged. -/
theorem C6_failed_actions_leave_state_unchanged (s : GameState) (req : ActionRequest)
    (s1 : GameState) (h : do_action s req = .ok (false, s1)) : s1 = s :=
  (do_action_spec s req false s1 h).1 rfl

def c6State : GameState :=
  ⟨initTokens, [], [], [], [0], [6, 6, 6, 0, 1], mkPlayer [0, 0, 0, 1, 2], mkPlayer [1], 0, none⟩

def c6Req : ActionRequest := ⟨"s", some [0, 0, 1], none, none, none⟩

theorem C6_witness :
    do_action c6State c6Req = .ok (false, c6State) ∧ c6State = c6State :=
  ⟨rfl, C6_failed_actions_leave_state_unchanged c6State c6Req c6State rfl⟩

/-- C7: on a successful action the acting player's hand ends up sorted, the
action's type and parameters are recorded as the last action, and the seat
flips 0 to 1 or 1 to 0; on a reported failure the seat and the last-action
record are unchanged. -/
theorem C7_success_sorts_records_flips (s : GameState) (req : ActionRequest) (b : Bool)
    (s1 : GameState) (h : do_action s req = .ok (b, s1)) :
    (b = true → List.Sorted (· ≤ ·) (getPlayer s1 s.whosTurn).hand ∧
      s1.lastAction = some req ∧
      (s.whosTurn = 0 → s1.whosTurn = 1) ∧ (s.whosTurn = 1 → s1.whosTurn = 0)) ∧
    (b = false → s1.whosTurn = s.whosTurn ∧ s1.lastAction = s.lastAction) := by
  have hs := do_action_spec s req b s1 h
  constructor
  · intro hb
    have h2 := hs.2 hb
    refine ⟨h2.2.2.2, h2.2.1, ?_, ?_⟩
    · intro h0
      rw [h2.1, h0]
      rfl
    · intro h1
      rw [h2.1, h1]
      rfl
  · intro hb
    have he := hs.1 hb
    rw [he]
    exact ⟨rfl, rfl⟩

def c7State : GameState :=
  ⟨initTokens, [], [], [], [0, 1], [6, 0, 1, 2, 3], mkPlayer [0, 1], mkPlayer [2], 0, none⟩

def c7Req : ActionRequest := ⟨"c", none, none, none, none⟩

def c7After : GameState :=
  ⟨initTokens, [], [], [], [0], [0, 1, 2, 3, 1], mkPlayer [0, 1, 6], mkPlayer [2], 1, some c7Req⟩

theorem C7_witness :
    do_action c7State c7Req = .ok (true, c7After) ∧
    ((true = true → List.Sorted (· ≤ ·) (getPlayer c7After c7State.whosTurn).hand ∧
      c7After.lastAction = some c7Req ∧
      (c7State.whosTurn = 0 → c7After.whosTurn = 1) ∧
      (c7State.whosTurn = 1 → c7After.whosTurn = 0)) ∧
     (true = false → c7After.whosTurn = c7State.whosTurn ∧
      c7After.lastAction = c7State.lastAction)) :=
  ⟨rfl, C7_success_sorts_records_flips c7State c7Req true c7After rfl⟩

def c8State : GameState :=
  ⟨initTokens, [], [], [], [0], [6, 6, 6, 0, 1], mkPlayer [0, 0, 0, 1, 2], mkPlayer [1], 0, none⟩

def c8Req : ActionRequest := ⟨"s", some [0, 1, 2], none, none, none⟩

def c8After : GameState :=
  ⟨[[1, 1, 1, 1, 1, 1], [1, 1, 2, 2, 3, 3, 5], [1, 1, 2, 2, 3, 3, 5],
    [5, 5, 5, 5, 5], [5, 5, 5, 6, 6], [5, 5, 5, 7, 7]],
   [], [], [], [0], [6, 6, 6, 0, 1],
   ⟨[1, 2], [4, 3, 2], [], [], []⟩, mkPlayer [1], 1, some c8Req⟩

/-- C8 counterexample: the claim says the deck+market+hands card total is
unchanged by every successful action, but a successful sell of three leather
cards lowers the total from 12 to 9 (sold cards leave play). -/
theorem C8_sell_breaks_conservation :
    do_action c8State c8Req = .ok (true, c8After) ∧
    totalCards c8After ≠ totalCards c8State :=
  ⟨rfl, by decide⟩

/-- C8 (amended): for every successful action, the card total after the action
plus the number of cards sold by the action (zero for take-camels, grab and
trade) equals the card total before it; in particular conservation holds for
the three non-sell actions, while a sell removes exactly the sold cards. -/
theorem C8_conservation_up_to_sold_cards (s : GameState) (req : ActionRequest)
    (s1 : GameState) (h : do_action s req = .ok (true, s1)) :
    totalCards s1 + soldCount req = totalCards s :=
  ((do_action_spec s req true s1 h).2 rfl).2.2.1

def c8wState : GameState :=
  ⟨initTokens, [], [], [], [0, 1], [6, 0, 1, 2, 3], mkPlayer [0, 1], mkPlayer [2], 0, none⟩

def c8wReq : ActionRequest := ⟨"g", none, some 1, none, none⟩

def c8wAfter : GameState :=
  ⟨initTokens, [], [], [], [0], [6, 1, 2, 3, 1], mkPlayer [0, 0, 1], mkPlayer [2], 1, some c8wReq⟩

theorem C8_witness :
    do_action c8wState c8wReq = .ok (true, c8wAfter) ∧
    totalCards c8wAfter + soldCount c8wReq = totalCards c8wState :=
  ⟨rfl, C8_conservation_up_to_sold_cards c8wState c8wReq c8wAfter rfl⟩

/-- C9: in every terminated state, get_scores returns per seat the sum of its
value tokens plus the sum of its bonus token values with the +5 camel-majority
bonus going to the seat with strictly more camels (nothing on a tie), and the
winner is decided by higher score, then strictly more bonus tokens by count,
then strictly more value tokens by count, and otherwise there is no winner. -/
theorem C9_scoring_matches_spec (s : GameState) (hdone : is_done s = true) :
    get_scores s = .final [spec_seatScore s 0, spec_seatScore s 1] (spec_winner s) := by
  have h0 : getPlayer s 0 = s.p0 := rfl
  have h1 : getPlayer s 1 = s.p1 := rfl
  have hf0 : flipSeat 0 = (1 : Fin 2) := rfl
  have hf1 : flipSeat 1 = (0 : Fin 2) := rfl
  simp only [get_scores, spec_winner, spec_seatScore, spec_bonusCount, hdone,
    Bool.true_eq_false, if_false, h0, h1, hf0, hf1]
  rcases Nat.lt_trichotomy (s.p0.hand.count 6) (s.p1.hand.count 6) with hc | hc | hc
  · have hA : ¬ (s.p0.hand.count 6 > s.p1.hand.count 6) := by omega
    have hB : s.p1.hand.count 6 > s.p0.hand.count 6 := by omega
    simp only [if_neg hA, if_pos hB, Nat.add_zero]
  · have hA : ¬ (s.p0.hand.count 6 > s.p1.hand.count 6) := by omega
    have hB : ¬ (s.p1.hand.count 6 > s.p0.hand.count 6) := by omega
    simp only [if_neg hA, if_neg hB, Nat.add_zero]
  · have hA : s.p0.hand.count 6 > s.p1.hand.count 6 := by omega
    have hB : ¬ (s.p1.hand.count 6 > s.p0.hand.count 6) := by omega
    simp only [if_pos hA, if_neg hB, Nat.add_zero]

def c9State : GameState :=
  ⟨initTokens, [], [], [], [], [6, 6, 6, 0, 1],
   ⟨[6, 6], [5, 5], [2], [], []⟩, ⟨[6], [3, 3, 3], [], [], []⟩, 0, none⟩

theorem C9_witness :
    is_done c9State = true ∧
    get_scores c9State =
      .final [spec_seatScore c9State 0, spec_seatScore c9State 1] (spec_winner c9State) :=
  ⟨by decide, C9_scoring_matches_spec c9State (by decide)⟩

def c10State : GameState :=
  ⟨initTokens, [1, 1, 2], [4, 4, 5], [8, 8, 9], [0, 1], [6, 6, 6, 0, 1],
   mkPlayer [3], mkPlayer [0, 1, 2], 0, none⟩

/-- C10: the claim says the snapshot returns the current seat's projection
without raising — but get_state iterates the token dict without .items()
(`for key,value in self._tokens`), so unpacking the integer keys raises a
TypeError on every call with a nonempty token bank. -/
theorem C10_get_state_raises_typeError :
    get_state c10State = .error .typeError := rfl

end Jaipur
